import Mathlib

/-!
# Verification of the web-research-agent pipeline

A shallow embedding, in Lean 4, of the pure computational core of the
`web-research-agent` repository, together with theorems settling the
specification claims about it.

Conventions used throughout:

* Python dictionaries carrying optional string fields become structures with
  `Option String` fields; Python truthiness of such a field is `truthy`
  (present and non-empty).
* External effects (Redis cache reads, HTTP requests, LLM completions) are
  modelled as explicit inputs: an environment structure carries the outcome
  each effect would produce, and functions that perform observable I/O also
  return a trace of `FetchEvent`s so that "no fetch happened" is a provable
  statement.
* Machine floats of the Python code (BM25 scores) are modelled over `ℚ`;
  wall-clock values (timeouts, `datetime.now()`) are abstract inputs.
-/

namespace WRA

/-- Python truthiness of an optional string: present and non-empty. -/
def truthy : Option String → Bool
  | none => false
  | some s => s ≠ ""

/-- Python `x or y` on optional strings: `x` if truthy, else `y`. -/
def pyOr (x y : Option String) : Option String :=
  if truthy x then x else y

/-! ## chatEngine.py : conversation history

`scripts/web/chatEngine.py`.  A chat message is modelled by its `role` and
`content`; the `timestamp` field (wall-clock) and the assistant `metadata`
field play no role in any claim and are omitted.  The Redis store for one
user is modelled as `Option (List ChatMsg)` (`none`: no entry). -/

structure ChatMsg where
  role : String
  content : String
deriving DecidableEq, Repr

/-- `chatEngine.get_conversation_history`: read the cached history, returning
`[]` when the cache entry is absent or falsy. -/
def get_conversation_history (stored : Option (List ChatMsg)) : List ChatMsg :=
  match stored with
  | none => []
  | some history => if history = [] then [] else history

/-- `chatEngine.estimate_token_count`: total character count of the message
contents, integer-divided by 4. -/
def estimate_token_count (messages : List ChatMsg) : Nat :=
  (messages.map (fun msg => msg.content.length)).sum / 4

/-- `chatEngine.MAX_TOKEN_COUNT`. -/
def MAX_TOKEN_COUNT : Nat := 4000

/-- `chatEngine.summarize_conversation_history`.  The LLM call is the input
`llm` (`some summary` on success, `none` when the call raises); on failure the
code falls back to a generic placeholder, so this function never fails.  The
summarised history only feeds the LLM prompt and therefore does not influence
the result beyond `llm` itself. -/
def summarize_conversation_history (llm : Option String)
    (history : List ChatMsg) : ChatMsg :=
  match llm with
  | some summary =>
      { role := "system", content := "Previous conversation summary: " ++ summary }
  | none =>
      { role := "system",
        content := "Previous conversation summary: User and assistant discussed various topics." }

/-- `chatEngine.update_conversation_history`: append the new messages to the
stored history; if the estimated token count exceeds `MAX_TOKEN_COUNT`,
replace everything but the last 6 messages (`history[-6:]`) by one synthetic
summary message.  Returns the history that is written back to the store. -/
def update_conversation_history (llm : Option String)
    (stored : Option (List ChatMsg)) (new_messages : List ChatMsg) : List ChatMsg :=
  let history := get_conversation_history stored ++ new_messages
  let token_count := estimate_token_count history
  if MAX_TOKEN_COUNT < token_count then
    let recent_messages := history.drop (history.length - 6)
    let older_messages := history.take (history.length - 6)
    summarize_conversation_history llm older_messages :: recent_messages
  else history

/-- `routers/app.py : clear_chat_history` (endpoint `DELETE /chat/history`):
the handler "clears" the history by calling
`update_conversation_history(conversation_user_id, [])`. -/
def clear_chat_history (llm : Option String)
    (stored : Option (List ChatMsg)) : List ChatMsg :=
  update_conversation_history llm stored []

/-! ## newsAggregator.py : fetch_news article filtering

`scripts/web/newsAggregator.py`, `fetch_news`, lines 112-148: the loop that
filters the provider's `news_results` by date window and truncates to
`max_results`.  The provider response and `datetime.now()` are inputs;
`parseArticleDate` is the composite of the `split(",")` manipulation and
`strptime` (`none` when any of it raises), with time as an abstract integer
timestamp. -/

/-- One entry of the provider's `news_results`, restricted to the fields the
loop reads. -/
structure RawNewsArticle where
  position : Option Nat
  title : Option String
  link : Option String
  date : Option String
  thumbnail : Option String
  source_name : Option String
  authors : Option (List String)
deriving DecidableEq, Repr

/-- The `cleaned_article` dictionary built by the loop. -/
structure CleanedArticle where
  position : Option Nat
  title : Option String
  link : Option String
  date : Option String
  thumbnail : Option String
  source : Option String
  authors : Option (List String)
deriving DecidableEq, Repr

/-- Field extraction for `cleaned_article` (`authors` added only if present,
hence an `Option`). -/
def cleanArticle (a : RawNewsArticle) : CleanedArticle :=
  { position := a.position, title := a.title, link := a.link, date := a.date,
    thumbnail := a.thumbnail, source := a.source_name, authors := a.authors }

/-- The date test of the loop body: an article is kept unless its `date`
field is present, parses, and is strictly older than the cutoff.  A missing
`date` key, or any exception while parsing (`parseArticleDate _ = none`),
keeps the article. -/
def keepArticle (parseArticleDate : String → Option Int) (cutoff : Int)
    (a : RawNewsArticle) : Bool :=
  match a.date with
  | none => true
  | some d =>
    match parseArticleDate d with
    | none => true
    | some article_date => !(article_date < cutoff)

/-- The `for article in results["news_results"]` loop: stop as soon as
`max_results` articles are accumulated, skip out-of-window articles,
append the cleaned article otherwise. -/
def newsFilterLoop (parseArticleDate : String → Option Int) (cutoff : Int)
    (max_results : Nat) :
    List RawNewsArticle → List CleanedArticle → List CleanedArticle
  | [], news_articles => news_articles
  | article :: rest, news_articles =>
    if max_results ≤ news_articles.length then news_articles
    else if keepArticle parseArticleDate cutoff article then
      newsFilterLoop parseArticleDate cutoff max_results rest
        (news_articles ++ [cleanArticle article])
    else
      newsFilterLoop parseArticleDate cutoff max_results rest news_articles

/-- The article list returned by `fetch_news` (on the success path, given the
provider's `news_results`). -/
def fetch_news_articles (parseArticleDate : String → Option Int) (cutoff : Int)
    (max_results : Nat) (news_results : List RawNewsArticle) : List CleanedArticle :=
  newsFilterLoop parseArticleDate cutoff max_results news_results []

/-! ## webScraper.py : robots.txt gate and scrape_webpage

`scripts/web/webScraper.py`.  Observable I/O of a call is returned as a
`FetchEvent` trace, so that the presence or absence of an HTTP page fetch and
of a robots.txt check is a provable property of a call. -/

/-- An observable network action of the scraper. -/
inductive FetchEvent where
  /-- `_check_robots_permission` was consulted for `url`. -/
  | robotsCheck (url : String)
  /-- An HTTP GET of the page at `url` was issued. -/
  | httpGet (url : String)
deriving DecidableEq, Repr

/-- Environment of `_check_robots_permission` for one call: the cached parser
for the URL's origin if `robots_txt_cache` holds one, the outcome of fetching
`robots.txt` (`Except.error`: the request raised; `some content` only on
HTTP 200), and the parser semantics `can_fetch bot url` of a parsed
`robots.txt` body. -/
structure RobotsEnv where
  cachedParser : Option (String → String → Bool)
  robotsFetch : Except String (Option String)
  parserOf : String → String → String → Bool

/-- `webScraper._check_robots_permission` (lines 47-97): use the cached
parser when present; otherwise fetch `robots.txt`, treating a transport
failure or a non-200 status as "allowed"; with a parser, allow if either
`ResearchBot` or `*` may fetch. -/
def _check_robots_permission (env : RobotsEnv) (url : String) : Bool :=
  match env.cachedParser with
  | some rp => rp "ResearchBot" url || rp "*" url
  | none =>
    match env.robotsFetch with
    | .error _ => true
    | .ok none => true
    | .ok (some robots_content) =>
        env.parserOf robots_content "ResearchBot" url ||
        env.parserOf robots_content "*" url

/-- `webScraper._fetch_content` (lines 99-127): check robots.txt first and
return `none` without fetching when disallowed; otherwise GET the page
(`some html` only on HTTP 200, `none` on other statuses or exceptions).
The page-GET outcome is the input `httpGet`. -/
def _fetch_content (renv : RobotsEnv) (httpGet : Except String (Option String))
    (url : String) : Option String × List FetchEvent :=
  let is_allowed := _check_robots_permission renv url
  if !is_allowed then (none, [FetchEvent.robotsCheck url])
  else
    match httpGet with
    | .error _ => (none, [FetchEvent.robotsCheck url, FetchEvent.httpGet url])
    | .ok none => (none, [FetchEvent.robotsCheck url, FetchEvent.httpGet url])
    | .ok (some html) => (some html, [FetchEvent.robotsCheck url, FetchEvent.httpGet url])

/-- Result dictionary of `read_webpage`, with the structured content collapsed
to an optional extract (its construction from the HTML is the oracle
`extract` below). -/
structure ReadResult where
  status : String
  message : String
  content : Option String
deriving DecidableEq, Repr

/-- `webScraper.read_webpage` (lines 301-366): fetch through `_fetch_content`
(hence behind the robots.txt gate) and report an error when no HTML was
obtained. -/
def read_webpage (renv : RobotsEnv) (httpGet : Except String (Option String))
    (extract : String → Option String) (url : String) : ReadResult × List FetchEvent :=
  match _fetch_content renv httpGet url with
  | (none, events) =>
      ({ status := "error", message := "Failed to fetch content from " ++ url,
         content := none }, events)
  | (some html, events) =>
      ({ status := "success", message := "Successfully scraped content from " ++ url,
         content := extract html }, events)

/-- Outcome of one LLM summarisation call as validated by `summarize_pages`:
`ok content` when the response has a choice that finished with `stop` and a
truthy message content; `incomplete` when the response fails those checks;
`exn` when the call raises. -/
inductive LlmOut where
  | ok (content : String)
  | incomplete
  | exn (msg : String)
deriving DecidableEq, Repr

/-- `metadata` dictionary of a scraped page. -/
structure PageMeta where
  title : String
  url : String
deriving DecidableEq, Repr

/-- A cached Redis entry for `user:url`: the markdown chunk list and
metadata. -/
structure CachedPages where
  pages : List String
  metadata : PageMeta
deriving DecidableEq, Repr

/-- Result dictionary of `scrape_webpage` / `summarize_pages`. -/
structure ScrapeResult where
  status : String
  message : String
  summarized_content : Option String
  metadata : Option PageMeta
deriving DecidableEq, Repr

/-- `webScraper.summarize_pages` (lines 473-572): error out when there is no
non-blank chunk; otherwise summarise each chunk with the LLM (`llm i` is the
call for chunk `i`], falling back to fixed placeholder strings on an
incomplete response or an exception; when there are several chunks, aggregate
them with one more LLM call (`agg`), falling back to the concatenation.
The `selector_query` only alters the prompt text, which is inside the LLM
oracle. -/
def summarize_pages (llm : Nat → LlmOut) (agg : LlmOut) (pages : List String)
    (metadata : PageMeta) (url : String) (selector_query : String) : ScrapeResult :=
  if pages = [] ∨ pages.all (fun page => page.trim = "") then
    { status := "error", message := "No content retrieved from " ++ url,
      summarized_content := none, metadata := some metadata }
  else
    let chunk_summaries := pages.enum.map (fun chunk =>
      match llm chunk.1 with
      | .ok summary => summary
      | .incomplete => "Summary not completed for chunk " ++ toString (chunk.1 + 1) ++ "."
      | .exn msg => "Error summarizing chunk " ++ toString (chunk.1 + 1) ++ ": " ++ msg)
    let final_summary :=
      if 1 < chunk_summaries.length then
        let aggregated_content := String.intercalate "\n\n" chunk_summaries
        match agg with
        | .ok s => s
        | _ => aggregated_content
      else chunk_summaries.headD ""
    { status := "success", message := "Successfully summarized content from " ++ url ++ ".",
      summarized_content := some final_summary, metadata := some metadata }

/-- Outcome of the Redis cache read at the top of `scrape_webpage`:
an exception while reading is caught and treated like a miss. -/
inductive CacheOutcome where
  | exn (msg : String)
  | miss
  | hit (d : CachedPages)

/-- Environment of one `scrape_webpage` call: the cache state for
`user:url`, the outcome of `requests.get` + `raise_for_status` (`ok html` or
the raised `RequestException`), title extraction from the HTML, the
markdownify+tiktoken chunking (including its plain-markdown fallback), and
the summarisation LLM calls. -/
structure ScrapeEnv where
  cache : CacheOutcome
  httpGet : Except String String
  pageTitle : String → Option String
  chunksOf : String → List String
  llm : Nat → LlmOut
  agg : LlmOut

/-- `webScraper.scrape_webpage` (lines 368-471), the live requests-based
implementation.  On a cache hit it goes straight to `summarize_pages` over the
cached chunks.  On a miss (or a cache-read exception) it issues
`requests.get(url, headers, timeout)` directly — there is no call to
`_check_robots_permission` on this path — then chunks and summarises.
The write-back of the fresh chunks to Redis (a cache side effect that does not
alter the returned value) and the wall-clock `timeout` argument are not
modelled. -/
def scrape_webpage (env : ScrapeEnv) (url : String) (selector_query : String) :
    ScrapeResult × List FetchEvent :=
  match env.cache with
  | .hit cached_data =>
      (summarize_pages env.llm env.agg cached_data.pages cached_data.metadata url
        selector_query, [])
  | _ =>
    match env.httpGet with
    | .error req_err =>
        ({ status := "error", message := "Error fetching " ++ url ++ ": " ++ req_err,
           summarized_content := none, metadata := none }, [FetchEvent.httpGet url])
    | .ok html =>
        let title := (env.pageTitle html).getD "Untitled Page"
        let pages := env.chunksOf html
        let metadata : PageMeta := { title := title, url := url }
        (summarize_pages env.llm env.agg pages metadata url selector_query,
         [FetchEvent.httpGet url])

/-! ## web.py : select_best_search_query

`scripts/web/web.py`, lines 126-192.  Python floats are modelled over `ℚ`.
Python's stable `list.sort(key=..., reverse=True)` is modelled by
`List.mergeSort` with the reversed key comparison, which is likewise stable
(equal scores keep their first-seen order). -/

/-- Python `str.split()` with no argument: split on whitespace runs, dropping
empty pieces. -/
def pySplit (s : String) : List String :=
  (s.split Char.isWhitespace).filter (fun piece => piece ≠ "")

/-- Python `sub in s` on strings: substring containment. -/
def pyInStr (sub s : String) : Bool :=
  decide (sub.toList <:+: s.toList)

/-- `re.findall(r'"([^"]+)"', s)` as a left-to-right scan.  The second
argument is the engine state: `none` while outside a candidate match,
`some run` when an opening `"` has been seen and `run` is the non-quote text
accumulated since.  A closing `"` after a non-empty run emits the run
(matches do not overlap: scanning resumes after the closing quote); a `"`
straight after an opening `"` cannot complete a match (`[^"]+` needs at least
one character) and instead acts as the next opening quote; an unclosed
opening quote at the end of the input emits nothing. -/
def findQuotedAux : List Char → Option (List Char) → List String
  | [], _ => []
  | c :: rest, none =>
    if c = '"' then findQuotedAux rest (some [])
    else findQuotedAux rest none
  | c :: rest, some run =>
    if c = '"' then
      if run = [] then findQuotedAux rest (some [])
      else String.mk run :: findQuotedAux rest none
    else findQuotedAux rest (some (run ++ [c]))

/-- The double-quote-delimited candidate queries of a search-strategy text. -/
def findQuoted (s : String) : List String :=
  findQuotedAux s.toList none

/-- The recency-keyword list `time_indicators` of `select_best_search_query`. -/
def time_indicators : List String :=
  ["latest", "recent", "current", "today", "updates", "news"]

/-- The score given to one candidate `query` by `select_best_search_query`:
the BM25-style term-overlap sum over the original query's terms (with `k1 =
1.2`, `b = 0.75`, and the average candidate length for normalisation) plus a
flat `+1` per recency keyword occurring in the candidate and `+2` if the
candidate contains a double quote.  (When `avg_query_length = 0` every
candidate has no terms, so the division never actually contributes: the
`ℚ`-convention `x / 0 = 0` is not observable.) -/
def queryScore (original_terms : List String) (avg_query_length : ℚ)
    (query : String) : ℚ :=
  let query_terms := pySplit query.toLower
  let query_length : ℚ := query_terms.length
  let k1 : ℚ := 12 / 10
  let b : ℚ := 3 / 4
  let base_score : ℚ :=
    ((time_indicators.filter (fun indicator => pyInStr indicator.toLower query.toLower)).length : ℚ)
      + (if query.contains '"' then 2 else 0)
  let bm25_score : ℚ :=
    (original_terms.map (fun term =>
      if query_terms.contains term then
        let tf : ℚ := (query_terms.count term : ℚ)
        let norm_factor := 1 - b + b * (query_length / avg_query_length)
        tf * (k1 + 1) / (tf + k1 * norm_factor)
      else 0)).sum
  bm25_score + base_score

/-- The `scored_queries` list: every candidate paired with its score. -/
def scoredQueries (search_queries : List String) (original_query_str : String) :
    List (String × ℚ) :=
  let original_terms := pySplit original_query_str.toLower
  let avg_query_length : ℚ :=
    ((search_queries.map (fun query => ((pySplit query).length : ℚ))).sum) /
      (search_queries.length : ℚ)
  search_queries.map (fun query => (query, queryScore original_terms avg_query_length query))

/-- `web.select_best_search_query`: extract the quoted candidates; return the
original query if there are none, the single candidate if there is one, and
otherwise the head of the stable descending sort of the scored candidates. -/
def select_best_search_query (search_strategy original_query_str : String) : String :=
  match findQuoted search_strategy with
  | [] => original_query_str
  | [query] => query
  | q₁ :: q₂ :: qs =>
    let search_queries := q₁ :: q₂ :: qs
    let scored_queries := scoredQueries search_queries original_query_str
    let sorted := scored_queries.mergeSort (fun x y => decide (y.2 ≤ x.2))
    (sorted.headD (original_query_str, 0)).1

/-! ## web.py : sources and the research pipeline

`scripts/web/web.py`, `perform_research` (lines 194-371) and
`synthesize_information` (lines 28-122).  A source dictionary is a `Source`;
field assignments of the Python code become functional updates. -/

/-- A source dictionary of `perform_research`.  The `analysis` attachment of
the deep-analysis stage is kept abstract as the text returned by
`analyze_content`. -/
structure Source where
  name : Option String
  url : Option String
  snippet : Option String
  content : Option String
  published_date : Option String
  source_type : String
  summarized_content : Option String
  analysis : Option String
deriving DecidableEq, Repr

/-- `sources[idx]["summarized_content"] = v`. -/
def Source.withSummarized (s : Source) (v : Option String) : Source :=
  { s with summarized_content := v }

/-- Outcome of one `asyncio.wait_for(scrape_webpage(...), 60)` call inside the
deep-scrape loop: the 60-second global timeout, some other exception, or the
result dictionary (of which the loop reads `status`, `message` and
`summarized_content`). -/
inductive ScrapeOutcome where
  | timeout
  | exn (msg : String)
  | result (status : String) (message : Option String) (summarized_content : Option String)
deriving DecidableEq, Repr

/-- Whether a scrape outcome is a result with `status == "success"`. -/
def ScrapeOutcome.isSuccess : ScrapeOutcome → Bool
  | .result status _ _ => status = "success"
  | _ => false

/-- The `summarized_content` carried by a scrape outcome. -/
def ScrapeOutcome.summarized : ScrapeOutcome → Option String
  | .result _ _ s => s
  | _ => none

/-- One entry of the loop's `results` list. -/
structure ScrapeAttempt where
  url : Option String
  success : Bool
  reason : Option String
deriving DecidableEq, Repr

/-- The `results` entry recorded for one processed source. -/
def attemptOf (source : Source) : ScrapeOutcome → ScrapeAttempt
  | .timeout => { url := source.url, success := false, reason := some "Global timeout exceeded" }
  | .exn msg => { url := source.url, success := false, reason := some msg }
  | .result status message _ =>
    if status = "success" then { url := source.url, success := true, reason := none }
    else { url := source.url, success := false, reason := message }

/-- The `results` list produced by processing `top` starting at call index
`k` (the `n`-th scrape call of the run gets outcome `scrape n`). -/
def attemptsFrom (scrape : Nat → ScrapeOutcome) : List Source → Nat → List ScrapeAttempt
  | [], _ => []
  | source :: rest, k => attemptOf source (scrape k) :: attemptsFrom scrape rest (k + 1)

/-- The deep-scrape `for source in top_web_sources` loop of `perform_research`
(lines 296-323).  Note the source's own control flow: the
`if source.get("url") and not source.get("content"):` statement guards only a
log line — the `try:` block holding the actual `scrape_webpage` call is at
loop level, so every source of `top_web_sources` is scraped, whether or not
it already carries `content`.  On a `status == "success"` result the source's
entry at `sources.index(source)` receives the scrape's `summarized_content`;
every other outcome records a failure in `results` and the loop continues. -/
def deepScrapeLoop (scrape : Nat → ScrapeOutcome) :
    List Source → List Source → Nat → List Source × List ScrapeAttempt
  | [], sources, _ => (sources, [])
  | source :: rest, sources, k =>
    let source_idx := sources.indexOf source
    match scrape k with
    | .result status _message summ =>
      if status = "success" then
        let sources' := List.modify (fun s => s.withSummarized summ) source_idx sources
        let step := deepScrapeLoop scrape rest sources' (k + 1)
        (step.1, attemptOf source (scrape k) :: step.2)
      else
        let step := deepScrapeLoop scrape rest sources (k + 1)
        (step.1, attemptOf source (scrape k) :: step.2)
    | _ =>
      let step := deepScrapeLoop scrape rest sources (k + 1)
      (step.1, attemptOf source (scrape k) :: step.2)

/-- How many sources the deep-scrape stage selects for the given depth. -/
def topCount (depth : String) : Nat := if depth = "standard" then 3 else 5

/-- `top_web_sources`: the first 3 (`standard`) or 5 (otherwise, i.e. `deep`)
sources whose `source_type` is `"web"`. -/
def topWebSources (depth : String) (sources : List Source) : List Source :=
  (sources.filter (fun s => s.source_type = "web")).take (topCount depth)

/-- Step 4 of `perform_research` (lines 287-323): for depth `deep` or
`standard`, run the deep-scrape loop over `top_web_sources`; otherwise leave
the sources untouched. -/
def deepScrapeStage (depth : String) (sources : List Source)
    (scrape : Nat → ScrapeOutcome) : List Source × List ScrapeAttempt :=
  if depth = "deep" ∨ depth = "standard" then
    deepScrapeLoop scrape (topWebSources depth sources) sources 0
  else (sources, [])

/-- Step 5 of `perform_research` (lines 326-338): for depth `deep`, walk the
first five sources and, when `content or summarized_content or snippet` is
truthy and `analyze_content` succeeds (`analyzeContent j = some text`), attach
the analysis to the source.  Python iterates `mixed_sources = sources[:5]` by
object reference and writes back at `sources.index(source)`, which for these
in-place dictionaries is the element's own position `j`; the loop is modelled
directly over the positions `0 ≤ j < min 5 |sources|`. -/
def analysisStep (analyzeContent : Nat → Option String) (cur : List Source)
    (j : Nat) : List Source :=
  match cur.get? j with
  | none => cur
  | some source =>
    let content := pyOr (pyOr source.content source.summarized_content) source.snippet
    if truthy content then
      match analyzeContent j with
      | some analysis => List.modify (fun s => { s with analysis := some analysis }) j cur
      | none => cur
    else cur

/-- The loop of the deep-analysis stage over the first five positions. -/
def analysisStage (depth : String) (sources : List Source)
    (analyzeContent : Nat → Option String) : List Source :=
  if depth = "deep" then
    (List.range (min 5 sources.length)).foldl (analysisStep analyzeContent) sources
  else sources

/-- The `summarized_content` value the deep-scrape loop writes at position
`j` of the gathered source list, if any: walking the selected sources in
order (the scrape of the `m`-th selected source being call `k + m`), the
first selected source that sits at position `j` (per `sources.index`) and
whose scrape succeeded contributes its scrape's `summarized_content`. -/
def hitSumm (orig : List Source) (scrape : Nat → ScrapeOutcome) :
    List Source → Nat → Nat → Option (Option String)
  | [], _, _ => none
  | s :: rest, k, j =>
    if orig.indexOf s = j ∧ (scrape k).isSuccess = true then some ((scrape k).summarized)
    else hitSumm orig scrape rest (k + 1) j

/-- The `analysis` dictionary produced by `analyze_query` (only the two keys
`perform_research` reads). -/
structure QueryAnalysis where
  search_strategy : String
  intent : String
deriving DecidableEq, Repr

/-- Outcome of `analyze_query`: `err` when it reports `status == "error"`. -/
inductive AnalyzeOutcome where
  | err (msg : String)
  | ok (analysis : QueryAnalysis)
deriving DecidableEq, Repr

/-- A news article as consumed by `perform_research` (the fields it reads from
`fetch_news`'s cleaned articles). -/
structure NewsArticleR where
  title : Option String
  link : Option String
  date : Option String
  source : Option String
deriving DecidableEq, Repr

/-- The `fetch_news` return value as consumed by `perform_research`. -/
structure NewsRes where
  status : String
  articles : List NewsArticleR
deriving DecidableEq, Repr

/-- One entry of `search_results["contexts"]` from `search_web`. -/
structure WebContext where
  name : Option String
  url : Option String
  snippet : Option String
  content : Option String
deriving DecidableEq, Repr

/-- The `synthesize_information` return value as consumed by
`perform_research` (`synthesized_answer` plus the metadata it copies). -/
structure SynthesisRes where
  synthesized_answer : Option String
  contradictions : Option String
  additional_research_suggestions : Option String
deriving DecidableEq, Repr

/-- `NEWS_KEYWORDS` of `perform_research`, with `str(datetime.now().year)` an
explicit input. -/
def NEWS_KEYWORDS (year : String) : List String :=
  ["latest", "recent", "breaking", "news", "today", "this week", "this month",
   "current", "update", "live", "newest", "headline", "ongoing", year]

/-- `is_news_query`: some news keyword occurs (as a substring) in the
lower-cased intent. -/
def isNewsQuery (intent : String) (year : String) : Bool :=
  (NEWS_KEYWORDS year).any (fun term => pyInStr term intent.toLower)

/-- The source dictionary built from one news article (step 3).  In Python a
`None` title would raise a `TypeError` in the string concatenation building
the snippet; that untripped corner is modelled by treating missing strings
as empty. -/
def newsToSource (article : NewsArticleR) : Source :=
  { name := article.title, url := article.link,
    snippet := some (article.title.getD "" ++ " - " ++ article.source.getD ""),
    content := none, published_date := article.date, source_type := "news",
    summarized_content := none, analysis := none }

/-- The source dictionary built from one web search context (step 3). -/
def ctxToSource (context : WebContext) : Source :=
  { name := context.name, url := context.url, snippet := context.snippet,
    content := context.content, published_date := none, source_type := "web",
    summarized_content := none, analysis := none }

/-- External outcomes consumed by one `perform_research` run: the query
analysis, the news fetch, the web search contexts, the per-call scrape
outcomes, the per-position `analyze_content` outcomes, the synthesis result,
and the current year string. -/
structure ResearchEnv where
  analyze : AnalyzeOutcome
  news : NewsRes
  webContexts : List WebContext
  scrape : Nat → ScrapeOutcome
  analyzeContent : Nat → Option String
  synth : SynthesisRes
  currentYear : String

/-- Step 3 of `perform_research` (lines 250-285): news sources are gathered
when the intent looks news-like or depth is `deep` and the fetch reported
success; web search sources are appended when the search returned contexts.
(The `days_back` passed to `fetch_news` varies with depth but only affects
the oracle's answer.) -/
def gatherSources (env : ResearchEnv) (depth : String) (intent : String) : List Source :=
  let newsPart :=
    if isNewsQuery intent env.currentYear ∨ depth = "deep" then
      if env.news.status = "success" then env.news.articles.map newsToSource else []
    else []
  let webPart :=
    if env.webContexts ≠ [] then env.webContexts.map ctxToSource else []
  newsPart ++ webPart

/-- The `result` payload of a successful `perform_research` (the
wall-clock `timestamp` field is omitted; `query_analysis`, counts and
synthesis metadata are reproduced from their inputs). -/
structure ResearchReport where
  query : String
  query_analysis : QueryAnalysis
  answer : Option String
  sources : List Source
  research_depth : String
  contradictions : Option String
  additional_research_suggestions : Option String
deriving DecidableEq, Repr

/-- The dictionary returned by `perform_research`. -/
structure ResearchRes where
  status : String
  message : String
  result : Option ResearchReport
deriving DecidableEq, Repr

/-- `web.perform_research` (lines 194-371): analyze the query (terminal error
on failure), rewrite the query through `select_best_search_query` when a
search strategy is present, gather news and web sources, deep-scrape and
deep-analyze according to depth, and finally either report the terminal
"no relevant sources" error or synthesize and return the report. -/
def perform_research (env : ResearchEnv) (query : String) (depth : String) : ResearchRes :=
  match env.analyze with
  | .err msg =>
      { status := "error", message := "Error analyzing query: " ++ msg, result := none }
  | .ok analysis =>
    let search_strategy := analysis.search_strategy
    let query' :=
      if search_strategy ≠ "" then select_best_search_query search_strategy query
      else query
    let intent := analysis.intent
    let sources₀ := gatherSources env depth intent
    let sources₁ := (deepScrapeStage depth sources₀ env.scrape).1
    let sources₂ := analysisStage depth sources₁ env.analyzeContent
    if sources₂ = [] then
      { status := "error", message := "No relevant sources found for the query",
        result := none }
    else
      { status := "success", message := "Research completed for query: " ++ query',
        result := some
          { query := query', query_analysis := analysis,
            answer := env.synth.synthesized_answer, sources := sources₂,
            research_depth := depth,
            contradictions := env.synth.contradictions,
            additional_research_suggestions := env.synth.additional_research_suggestions } }

/-! ## web.py : synthesize_information context selection

`synthesize_information`, lines 51-58: the text a source contributes to the
synthesis prompt. -/

/-- `source.get('content') or source.get('snippet') or
source.get('summarized_content')`. -/
def synthSourceText (source : Source) : Option String :=
  pyOr (pyOr source.content source.snippet) source.summarized_content

/-- The `SOURCE idx+1: ...` block appended to `context_parts` for one source
(`none` when the selected text is falsy and the source is skipped).  The
source dictionaries built by this pipeline carry no `title` key, so
`source.get('name') or source.get('title') or url` reduces to
`name or url`. -/
def contextPart (idx : Nat) (source : Source) : Option String :=
  let content := synthSourceText source
  if truthy content then
    let url := source.url.getD "Unknown source"
    let title := if truthy source.name then source.name.getD "" else url
    some ("SOURCE " ++ toString (idx + 1) ++ ": " ++ title ++ "\nURL: " ++ url ++
      "\nCONTENT: " ++ (content.getD "").take 2000)
  else none

/-- Concrete date parser for the C7 witness: an in-window date, an
out-of-window date, and everything else unparseable (cutoff `0`). -/
def exParseDate : String → Option Int := fun d =>
  if d = "10/02/2026, 09:00 AM" then some (-3)
  else if d = "10/10/2026, 09:00 AM" then some 5
  else none

/-- A provider article dated 10 days ago for the C7 witness. -/
def exOldArticle : RawNewsArticle :=
  { position := some 1, title := some "old", link := some "http://n.example/old",
    date := some "10/02/2026, 09:00 AM", thumbnail := none,
    source_name := some "Src", authors := none }

/-- A provider article dated 2 days ago for the C7 witness. -/
def exFreshArticle : RawNewsArticle :=
  { position := some 2, title := some "fresh", link := some "http://n.example/fresh",
    date := some "10/10/2026, 09:00 AM", thumbnail := none,
    source_name := some "Src", authors := none }

/-- A provider article with an unparseable date string for the C7 witness. -/
def exGarbledArticle : RawNewsArticle :=
  { position := some 3, title := some "garbled", link := some "http://n.example/garbled",
    date := some "yesterday-ish", thumbnail := none,
    source_name := some "Src", authors := none }


/-- C1 counterexample data: a web source that already carries inline
`content`. -/
def exWebWithContent : Source :=
  { name := some "has content", url := some "http://a.example", snippet := some "snip a",
    content := some "full body", published_date := none, source_type := "web",
    summarized_content := none, analysis := none }

/-- A web source without inline content, at `url`. -/
def exWebSource (nm url : String) : Source :=
  { name := some nm, url := some url, snippet := some ("snip " ++ nm), content := none,
    published_date := none, source_type := "web",
    summarized_content := none, analysis := none }

/-- C1 counterexample source list: the content-bearing web source first,
then three content-less web sources. -/
def exC1Sources : List Source :=
  [exWebWithContent, exWebSource "b" "http://b.example", exWebSource "c" "http://c.example",
   exWebSource "d" "http://d.example"]

/-- C2 witness scrape oracle: odd-numbered calls time out, even-numbered
calls succeed with a summary. -/
def exC2Scrape : Nat → ScrapeOutcome := fun i =>
  if i % 2 = 1 then ScrapeOutcome.timeout
  else ScrapeOutcome.result "success" none (some "SUM")

/-- C2 witness environment: five distinct web search results, no news, and
the partially failing scrape oracle. -/
def exC2Env : ResearchEnv :=
  { analyze := .ok { search_strategy := "", intent := "research the topic" },
    news := { status := "error", articles := [] },
    webContexts :=
      [{ name := some "r0", url := some "http://s0.example", snippet := some "s0", content := none },
       { name := some "r1", url := some "http://s1.example", snippet := some "s1", content := none },
       { name := some "r2", url := some "http://s2.example", snippet := some "s2", content := none },
       { name := some "r3", url := some "http://s3.example", snippet := some "s3", content := none },
       { name := some "r4", url := some "http://s4.example", snippet := some "s4", content := none }],
    scrape := exC2Scrape,
    analyzeContent := fun _ => none,
    synth := { synthesized_answer := some "the synthesized answer",
               contradictions := none, additional_research_suggestions := none },
    currentYear := "2026" }

/-- C1 witness scrape oracle: every call succeeds with a summary. -/
def exScrapeOk : Nat → ScrapeOutcome :=
  fun _ => ScrapeOutcome.result "success" none (some "S0")

/-! ## Theorems -/

/-- C3: the claim states that the explicit history-deletion operation
overwrites the stored conversation history with the empty list.  The code
does not: `clear_chat_history` calls `update_conversation_history(uid, [])`,
which reads the existing history, appends nothing, and writes the same
history back.  At the concrete failing input — a user whose cached history
is one short message — the history written back by the clear operation is
that same message list, not `[]`, contradicting the handler's own
"Chat history cleared successfully" response and its
"Update with empty list to clear the history" comment. -/
theorem clear_chat_history_keeps_messages :
    clear_chat_history none (some [{ role := "user", content := "hi" }]) =
      [{ role := "user", content := "hi" }] ∧
    ([{ role := "user", content := "hi" }] : List ChatMsg) ≠ [] := by
  constructor
  · rfl
  · simp

/-- C10: in `synthesize_information` the text contributed by a source is
selected with priority `content`, then `snippet`, then `summarized_content`
(first truthy field), and the selected text enters the context block
truncated to 2000 characters; consequently, for a source with a truthy
`snippet`, the contributed block is independent of `summarized_content` —
in particular a deep-scrape summary attached to such a source is never part
of the synthesis input. -/
theorem synthesis_context_priority (source : Source) (idx : Nat) :
    (∀ s : Source, synthSourceText s =
      (if truthy s.content then s.content
       else if truthy s.snippet then s.snippet
       else s.summarized_content)) ∧
    (contextPart idx source =
      (if truthy (synthSourceText source) then
        some ("SOURCE " ++ toString (idx + 1) ++ ": " ++
          (if truthy source.name then source.name.getD "" else source.url.getD "Unknown source") ++
          "\nURL: " ++ source.url.getD "Unknown source" ++
          "\nCONTENT: " ++ ((synthSourceText source).getD "").take 2000)
       else none)) ∧
    (truthy source.snippet = true →
      ∀ x : Option String,
        contextPart idx { source with summarized_content := x } = contextPart idx source) := by
  refine ⟨?_, ?_, ?_⟩
  · intro s
    unfold synthSourceText pyOr
    cases htc : truthy s.content <;> cases hts : truthy s.snippet <;> simp [htc, hts]
  · rfl
  · intro hsn x
    have hsel : ∀ y : Option String,
        synthSourceText { source with summarized_content := y } =
          (if truthy source.content then source.content else source.snippet) := by
      intro y
      unfold synthSourceText pyOr
      cases htc : truthy source.content <;> simp [htc, hsn]
    have htr : truthy (if truthy source.content then source.content else source.snippet) = true := by
      cases htc : truthy source.content <;> simp [htc, hsn]
    have hx := hsel x
    have hnone : synthSourceText source =
        (if truthy source.content then source.content else source.snippet) := by
      have := hsel source.summarized_content
      simpa using this
    unfold contextPart
    simp only [hx, hnone, htr]

/-- C6: a `scrape_webpage` call that finds a cached chunk entry performs no
HTTP page fetch (its event trace is empty) and returns exactly the result of
a fresh `summarize_pages` pass over the cached chunk list and cached
metadata; the result is invariant under the HTTP, title-extraction and
chunking oracles, so no re-fetch or re-chunking can influence it, while the
summarisation LLM calls of this very invocation do. -/
theorem scrape_cache_hit_resummarizes (env : ScrapeEnv) (url sq : String)
    (d : CachedPages) (h : env.cache = .hit d) :
    scrape_webpage env url sq =
      (summarize_pages env.llm env.agg d.pages d.metadata url sq, []) ∧
    ∀ g t f, scrape_webpage { env with httpGet := g, pageTitle := t, chunksOf := f } url sq =
      scrape_webpage env url sq := by
  constructor
  · unfold scrape_webpage
    rw [h]
  · intro g t f
    unfold scrape_webpage
    rw [h]

/-- Witness for `scrape_cache_hit_resummarizes` at a concrete cached entry. -/
theorem scrape_cache_hit_resummarizes_witness :
    scrape_webpage
        { cache := .hit { pages := ["chunk one"], metadata := { title := "T", url := "http://c.example" } },
          httpGet := .error "net down", pageTitle := fun _ => none,
          chunksOf := fun _ => [], llm := fun _ => .ok "a summary", agg := .incomplete }
        "http://c.example" "" =
      (summarize_pages (fun _ => .ok "a summary") .incomplete ["chunk one"]
        { title := "T", url := "http://c.example" } "http://c.example" "", []) :=
  (scrape_cache_hit_resummarizes _ "http://c.example" "" _ rfl).1

/-- C4, counterexample: a `scrape_webpage` call with no cached chunk entry
issues its HTTP page fetch with no robots.txt compliance check at all — the
trace of the call is exactly one page GET and contains no robots check —
contradicting the claim that no page fetch happens without a preceding
robots.txt check. -/
theorem scrape_webpage_fetch_unguarded :
    (scrape_webpage
        { cache := .miss, httpGet := .ok "<html><body>hi</body></html>",
          pageTitle := fun _ => none, chunksOf := fun html => [html],
          llm := fun _ => .ok "summary", agg := .ok "summary" }
        "http://example.com/page" "").2 =
      [FetchEvent.httpGet "http://example.com/page"] ∧
    FetchEvent.robotsCheck "http://example.com/page" ∉
      (scrape_webpage
        { cache := .miss, httpGet := .ok "<html><body>hi</body></html>",
          pageTitle := fun _ => none, chunksOf := fun html => [html],
          llm := fun _ => .ok "summary", agg := .ok "summary" }
        "http://example.com/page" "").2 := by
  constructor
  · rfl
  · intro hmem
    simp only [scrape_webpage] at hmem
    simp at hmem

/-- C4, amended: the robots.txt gate lives in `_fetch_content` (the fetch
path of `read_webpage` and of the deep serper scraping), not in
`scrape_webpage`.  On that path: a disallowed URL is never fetched and
surfaces from `read_webpage` as a cannot-fetch error; every trace starts
with the robots check, so any page GET is preceded by it; and with no cached
parser, a transport failure or a missing (non-200) `robots.txt` is treated
as allowed. -/
theorem fetch_content_robots_gate (renv : RobotsEnv)
    (httpGet : Except String (Option String)) (extract : String → Option String)
    (url : String) :
    (_check_robots_permission renv url = false →
      _fetch_content renv httpGet url = (none, [FetchEvent.robotsCheck url]) ∧
      (read_webpage renv httpGet extract url).1.status = "error" ∧
      (read_webpage renv httpGet extract url).1.content = none) ∧
    ((_fetch_content renv httpGet url).2.head? = some (FetchEvent.robotsCheck url)) ∧
    (renv.cachedParser = none →
      (renv.robotsFetch = .ok none ∨ ∃ e, renv.robotsFetch = .error e) →
      _check_robots_permission renv url = true) := by
  refine ⟨?_, ?_, ?_⟩
  · intro hdis
    have hfc : _fetch_content renv httpGet url = (none, [FetchEvent.robotsCheck url]) := by
      unfold _fetch_content
      rw [hdis]
      simp
    refine ⟨hfc, ?_, ?_⟩ <;> · unfold read_webpage; rw [hfc]
  · unfold _fetch_content
    cases hd : _check_robots_permission renv url <;>
      cases httpGet with
      | error e => simp
      | ok o => cases o <;> simp
  · intro hc hr
    unfold _check_robots_permission
    rw [hc]
    rcases hr with h | ⟨e, h⟩ <;> rw [h]

/-- Witness for `fetch_content_robots_gate`: a robots environment whose
parser disallows everything (parts 1 and 2), and one with no cached parser
and a missing robots.txt (part 3). -/
theorem fetch_content_robots_gate_witness :
    (_fetch_content
        { cachedParser := some (fun _ _ => false), robotsFetch := .ok none,
          parserOf := fun _ _ _ => false }
        (.ok (some "<html></html>")) "http://blocked.example/a" =
      (none, [FetchEvent.robotsCheck "http://blocked.example/a"]) ∧
      (read_webpage
        { cachedParser := some (fun _ _ => false), robotsFetch := .ok none,
          parserOf := fun _ _ _ => false }
        (.ok (some "<html></html>")) (fun _ => some "text") "http://blocked.example/a").1.status = "error" ∧
      (read_webpage
        { cachedParser := some (fun _ _ => false), robotsFetch := .ok none,
          parserOf := fun _ _ _ => false }
        (.ok (some "<html></html>")) (fun _ => some "text") "http://blocked.example/a").1.content = none) ∧
    _check_robots_permission
        { cachedParser := none, robotsFetch := .ok none, parserOf := fun _ _ _ => false }
        "http://open.example/b" = true := by
  constructor
  · exact (fetch_content_robots_gate _ _ _ _).1 rfl
  · exact (fetch_content_robots_gate
      { cachedParser := none, robotsFetch := .ok none, parserOf := fun _ _ _ => false }
      (.ok none) (fun _ => none) "http://open.example/b").2.2 rfl (Or.inl rfl)

/-- C9: when the news fetch contributes no articles and the web search
returns no contexts, the gathered source list is empty and `perform_research`
terminates with the "no relevant sources" error: `status = "error"` and a
`none` result payload (the function is total — no exception escapes). -/
theorem research_no_sources_error (env : ResearchEnv) (query depth : String)
    (a : QueryAnalysis) (hA : env.analyze = .ok a)
    (hnews : env.news.articles = []) (hweb : env.webContexts = []) :
    perform_research env query depth =
      { status := "error", message := "No relevant sources found for the query",
        result := none } := by
  have h0 : gatherSources env depth a.intent = [] := by
    unfold gatherSources
    rw [hnews, hweb]
    simp
  have h1 : (deepScrapeStage depth (gatherSources env depth a.intent) env.scrape).1 = [] := by
    rw [h0]
    unfold deepScrapeStage topWebSources
    split <;> simp [deepScrapeLoop]
  have h2 : analysisStage depth
      ((deepScrapeStage depth (gatherSources env depth a.intent) env.scrape).1)
      env.analyzeContent = [] := by
    rw [h1]
    unfold analysisStage
    split <;> simp
  unfold perform_research
  rw [hA]
  simp only [h2]
  rfl

/-- Witness for `research_no_sources_error` at a concrete empty environment. -/
theorem research_no_sources_error_witness :
    perform_research
        { analyze := .ok { search_strategy := "", intent := "find facts" },
          news := { status := "error", articles := [] }, webContexts := [],
          scrape := fun _ => .timeout, analyzeContent := fun _ => none,
          synth := { synthesized_answer := none, contradictions := none,
                     additional_research_suggestions := none },
          currentYear := "2026" }
        "some query" "standard" =
      { status := "error", message := "No relevant sources found for the query",
        result := none } :=
  research_no_sources_error _ "some query" "standard" _ rfl rfl rfl

/-- Witness for `synthesis_context_priority`: a concrete source with a
non-empty snippet; attaching a deep-scrape summary leaves its context block
unchanged. -/
theorem synthesis_context_priority_witness :
    contextPart 0
        { name := some "Example", url := some "http://w.example", snippet := some "a snippet",
          content := none, published_date := none, source_type := "web",
          summarized_content := some "A LONG SCRAPED SUMMARY", analysis := none } =
      contextPart 0
        { name := some "Example", url := some "http://w.example", snippet := some "a snippet",
          content := none, published_date := none, source_type := "web",
          summarized_content := none, analysis := none } :=
  (synthesis_context_priority
    { name := some "Example", url := some "http://w.example", snippet := some "a snippet",
      content := none, published_date := none, source_type := "web",
      summarized_content := none, analysis := none } 0).2.2 rfl
    (some "A LONG SCRAPED SUMMARY")

/-- C8, counterexample: the claim promises that any over-threshold history is
rewritten as one summary message followed by exactly the 6 most recent
messages.  A history consisting of a single 16020-character message has an
estimated token count of 4005 > 4000, yet the history written back has 2
messages (the summary plus the one original), not 1 + 6. -/
theorem compaction_short_history :
    MAX_TOKEN_COUNT <
      estimate_token_count (get_conversation_history none ++
        [{ role := "user", content := String.mk (List.replicate 16020 'a') }]) ∧
    (update_conversation_history (some "s") none
        [{ role := "user", content := String.mk (List.replicate 16020 'a') }]).length = 2 := by
  have hest : estimate_token_count
      [{ role := "user", content := String.mk (List.replicate 16020 'a') }] = 4005 := by
    unfold estimate_token_count
    simp only [List.map_cons, List.map_nil, List.sum_cons, List.sum_nil,
      String.length_mk, List.length_replicate]
    norm_num
  constructor
  · simp only [get_conversation_history, List.nil_append, hest]
    norm_num [MAX_TOKEN_COUNT]
  · simp only [update_conversation_history, get_conversation_history, List.nil_append, hest]
    norm_num [MAX_TOKEN_COUNT]

/-- C8, amended: whenever the estimated token count of the stored history
plus the new messages exceeds `MAX_TOKEN_COUNT`, the history written back is
one leading synthetic `system` summary message followed by the at most 6 most
recent messages in their original order — exactly 6 whenever the appended
history has at least 6 messages; when the summarisation call fails the
summary message carries the generic placeholder text, and the operation is
total (never raises). -/
theorem history_compaction_amended (llm : Option String)
    (stored : Option (List ChatMsg)) (new_messages : List ChatMsg)
    (h : MAX_TOKEN_COUNT <
      estimate_token_count (get_conversation_history stored ++ new_messages)) :
    update_conversation_history llm stored new_messages =
      summarize_conversation_history llm
          ((get_conversation_history stored ++ new_messages).take
            ((get_conversation_history stored ++ new_messages).length - 6)) ::
        (get_conversation_history stored ++ new_messages).drop
          ((get_conversation_history stored ++ new_messages).length - 6) ∧
    (summarize_conversation_history llm
        ((get_conversation_history stored ++ new_messages).take
          ((get_conversation_history stored ++ new_messages).length - 6))).role = "system" ∧
    ((get_conversation_history stored ++ new_messages).drop
        ((get_conversation_history stored ++ new_messages).length - 6)).length =
      min 6 (get_conversation_history stored ++ new_messages).length ∧
    (llm = none →
      (summarize_conversation_history llm
          ((get_conversation_history stored ++ new_messages).take
            ((get_conversation_history stored ++ new_messages).length - 6))).content =
        "Previous conversation summary: User and assistant discussed various topics.") := by
  refine ⟨?_, ?_, ?_, ?_⟩
  · simp only [update_conversation_history]
    rw [if_pos h]
  · cases llm <;> rfl
  · simp only [List.length_drop]
    omega
  · intro hnone
    subst hnone
    rfl

/-- Witness for `history_compaction_amended`: seven stored 2400-character
messages exceed the threshold (estimate 4200); the written-back history is
the summary plus the last six. -/
theorem history_compaction_amended_witness :
    update_conversation_history none
        (some (List.replicate 7 { role := "user", content := String.mk (List.replicate 2400 'a') }))
        [] =
      summarize_conversation_history none
          ((get_conversation_history
              (some (List.replicate 7 { role := "user", content := String.mk (List.replicate 2400 'a') })) ++
            ([] : List ChatMsg)).take
            ((get_conversation_history
                (some (List.replicate 7 { role := "user", content := String.mk (List.replicate 2400 'a') })) ++
              ([] : List ChatMsg)).length - 6)) ::
        (get_conversation_history
            (some (List.replicate 7 { role := "user", content := String.mk (List.replicate 2400 'a') })) ++
          ([] : List ChatMsg)).drop
          ((get_conversation_history
              (some (List.replicate 7 { role := "user", content := String.mk (List.replicate 2400 'a') })) ++
            ([] : List ChatMsg)).length - 6) :=
  (history_compaction_amended none
    (some (List.replicate 7 { role := "user", content := String.mk (List.replicate 2400 'a') }))
    []
    (by
      have h7 : get_conversation_history
          (some (List.replicate 7
            ({ role := "user", content := String.mk (List.replicate 2400 'a') } : ChatMsg))) =
          List.replicate 7 { role := "user", content := String.mk (List.replicate 2400 'a') } := by
        unfold get_conversation_history
        simp
      rw [h7, List.append_nil]
      unfold estimate_token_count
      rw [List.map_replicate]
      simp only [String.length_mk, List.length_replicate]
      rw [List.sum_replicate]
      norm_num [MAX_TOKEN_COUNT])).1

/-- The news loop with accumulator `acc` extends `acc` by the cleaned
in-window articles, truncated so the total does not exceed `max_results`. -/
theorem newsFilterLoop_eq (p : String → Option Int) (c : Int) (m : Nat)
    (l : List RawNewsArticle) :
    ∀ acc : List CleanedArticle,
      newsFilterLoop p c m l acc =
        if m ≤ acc.length then acc
        else acc ++ ((l.filter (keepArticle p c)).map cleanArticle).take (m - acc.length) := by
  induction l with
  | nil => intro acc; simp [newsFilterLoop]
  | cons a rest ih =>
    intro acc
    by_cases hm : m ≤ acc.length
    · simp [newsFilterLoop, hm]
    · rw [newsFilterLoop, if_neg hm, if_neg hm]
      by_cases hk : keepArticle p c a = true
      · rw [if_pos hk, ih]
        obtain ⟨k, hkk⟩ : ∃ k, m - acc.length = k + 1 := ⟨m - acc.length - 1, by omega⟩
        simp only [List.filter_cons, hk, if_pos, List.map_cons, hkk, List.take_succ_cons]
        by_cases hm1 : m ≤ (acc ++ [cleanArticle a]).length
        · have hk0 : k = 0 := by
            simp only [List.length_append, List.length_cons, List.length_nil] at hm1
            omega
          rw [if_pos hm1, hk0]
          simp
        · have hke : m - (acc ++ [cleanArticle a]).length = k := by
            simp only [List.length_append, List.length_cons, List.length_nil]
            omega
          rw [if_neg hm1, hke]
          simp
      · rw [if_neg hk, ih, if_neg hm]
        simp only [List.filter_cons, hk]
        simp

/-- The filtered article list of `fetch_news`: the in-window (or undated /
unparseable-dated) articles, cleaned, in provider order, truncated to
`max_results`. -/
theorem fetch_news_articles_eq (p : String → Option Int) (c : Int) (m : Nat)
    (articles : List RawNewsArticle) :
    fetch_news_articles p c m articles =
      ((articles.filter (keepArticle p c)).map cleanArticle).take m := by
  unfold fetch_news_articles
  rw [newsFilterLoop_eq]
  by_cases h : m ≤ 0
  · have h0 : m = 0 := by omega
    simp [h0]
  · simp [h]

/-- C7: the returned article list is the cleaned form of an
order-preserving sublist of the provider articles, each retained article
passes the window test, the list never exceeds `max_results`, an article is
rejected by the window test only when its date is present, parses, and is
older than the cutoff (so undated or unparseable-dated articles are always
retained by the filter), and — when the filter output fits in `max_results`
— every unparseable-dated provider article appears in the result. -/
theorem fetch_news_window_filter (p : String → Option Int) (c : Int) (m : Nat)
    (articles : List RawNewsArticle) :
    (fetch_news_articles p c m articles =
      ((articles.filter (keepArticle p c)).map cleanArticle).take m) ∧
    ((articles.filter (keepArticle p c)).Sublist articles) ∧
    ((fetch_news_articles p c m articles).length ≤ m) ∧
    (∀ a ∈ articles, keepArticle p c a = false →
      ∃ d, a.date = some d ∧ ∃ t, p d = some t ∧ t < c) ∧
    ((articles.filter (keepArticle p c)).length ≤ m →
      ∀ a ∈ articles, (∀ d, a.date = some d → p d = none) →
        cleanArticle a ∈ fetch_news_articles p c m articles) := by
  refine ⟨fetch_news_articles_eq p c m articles, List.filter_sublist articles, ?_, ?_, ?_⟩
  · rw [fetch_news_articles_eq]
    simp only [List.length_take, List.length_map]
    omega
  · intro a _ha hkeep
    unfold keepArticle at hkeep
    split at hkeep
    next => exact absurd hkeep (by simp)
    next d hd =>
      split at hkeep
      next => exact absurd hkeep (by simp)
      next t hp => exact ⟨d, hd, t, hp, by simpa using hkeep⟩
  · intro hlen a ha hunp
    have hkeep : keepArticle p c a = true := by
      unfold keepArticle
      split
      next => rfl
      next d hd => rw [hunp d hd]
    rw [fetch_news_articles_eq]
    rw [List.take_of_length_le (by simpa using hlen)]
    exact List.mem_map_of_mem cleanArticle (List.mem_filter.mpr ⟨ha, hkeep⟩)

/-- Witness for `fetch_news_window_filter` at the spec's example: of one
article 10 days old, one 2 days old and one with an unparseable date, only
the 10-day-old one is dropped and order is preserved. -/
theorem fetch_news_window_filter_witness :
    fetch_news_articles exParseDate 0 20 [exOldArticle, exFreshArticle, exGarbledArticle] =
      [cleanArticle exFreshArticle, cleanArticle exGarbledArticle] := by
  rw [(fetch_news_window_filter exParseDate 0 20
    [exOldArticle, exFreshArticle, exGarbledArticle]).1]
  decide

/-- `List.find?` only depends on the predicate's values on the list. -/
theorem find?_congr_on {α : Type} (l : List α) {p q : α → Bool}
    (h : ∀ x ∈ l, p x = q x) : l.find? p = l.find? q := by
  induction l with
  | nil => rfl
  | cons a t ih =>
    rw [List.find?_cons, List.find?_cons, h a (List.mem_cons_self a t)]
    cases q a
    · exact ih (fun x hx => h x (List.mem_cons_of_mem a hx))
    · rfl

/-- The head of a stable `mergeSort` by a transitive total comparison is the
first element of the input that compares `le` to every element — i.e. the
first-seen maximum. -/
theorem head?_mergeSort_eq_find? {α : Type} (le : α → α → Bool)
    (trans : ∀ a b c, le a b → le b c → le a c)
    (total : ∀ a b, le a b || le b a) :
    ∀ l : List α, (l.mergeSort le).head? = l.find? (fun x => l.all (fun y => le x y)) := by
  intro l
  induction l with
  | nil => simp
  | cons a t ih =>
    obtain ⟨l₁, l₂, h₁, h₂, h₃⟩ := List.mergeSort_cons trans total a t
    by_cases ha : (a :: t).all (fun y => le a y) = true
    · have hl₁ : l₁ = [] := by
        cases hl : l₁ with
        | nil => rfl
        | cons x xs =>
          exfalso
          have hx : x ∈ l₁ := by rw [hl]; exact List.mem_cons_self x xs
          have hxt : x ∈ t.mergeSort le := by rw [h₂]; exact List.mem_append_left _ hx
          have hxt' : x ∈ t := List.mem_mergeSort.mp hxt
          have hne := h₃ x hx
          have hax : le a x = true :=
            List.all_eq_true.mp ha x (List.mem_cons_of_mem a hxt')
          rw [hax] at hne
          exact Bool.noConfusion hne
      rw [h₁, hl₁, List.nil_append, List.head?_cons,
        List.find?_cons_of_pos t (show (fun x => (a :: t).all (fun y => le x y)) a = true from ha)]
    · have haa : le a a = true := by
        have := total a a
        simpa using this
      have hb : ∃ b ∈ t, le a b = false := by
        by_contra hcon
        push_neg at hcon
        apply ha
        rw [List.all_eq_true]
        intro y hy
        rcases List.mem_cons.mp hy with rfl | hyt
        · exact haa
        · have hcy := hcon y hyt
          cases hle : le a y
          · exact absurd hle hcy
          · rfl
      obtain ⟨b, hbt, hab⟩ := hb
      have hba : le b a = true := by
        have := total a b
        rw [hab] at this
        simpa using this
      have hagree : ∀ x ∈ t,
          ((a :: t).all (fun y => le x y)) = (t.all (fun y => le x y)) := by
        intro x hx
        cases hxt : t.all (fun y => le x y)
        · rw [List.all_cons, hxt, Bool.and_false]
        · have hxb : le x b = true := List.all_eq_true.mp hxt b hbt
          have hxa : le x a = true := trans x b a hxb hba
          rw [List.all_cons, hxa, hxt]
          rfl
      have hpa : ¬ ((fun x => (a :: t).all (fun y => le x y)) a = true) := ha
      have hl₁ : l₁ ≠ [] := by
        intro hl
        have hsorted := List.sorted_mergeSort trans total (a :: t)
        rw [h₁, hl, List.nil_append] at hsorted
        have hbl₂ : b ∈ l₂ := by
          have hbm : b ∈ t.mergeSort le := List.mem_mergeSort.mpr hbt
          rw [h₂, hl, List.nil_append] at hbm
          exact hbm
        have hle := (List.pairwise_cons.mp hsorted).1 b hbl₂
        rw [hab] at hle
        exact Bool.noConfusion hle
      obtain ⟨x, xs, hx⟩ := List.exists_cons_of_ne_nil hl₁
      rw [h₁, hx, List.cons_append, List.head?_cons,
        List.find?_cons_of_neg t hpa, find?_congr_on t hagree, ← ih, h₂, hx,
        List.cons_append, List.head?_cons]

/-- C5: `select_best_search_query` extracts the double-quote-delimited
candidates of the strategy text; with no candidate it returns the original
query, with exactly one it returns that candidate verbatim, and with two or
more it returns the first-seen candidate whose score (the BM25-style
term-overlap sum of `queryScore`, plus the flat recency and quote bonuses) is
maximal — Python's stable `reverse=True` sort resolves ties in favour of the
earlier candidate.  The function is pure: its value is fully determined by
its two string arguments. -/
theorem select_best_search_query_spec (search_strategy original_query_str : String) :
    (findQuoted search_strategy = [] →
      select_best_search_query search_strategy original_query_str = original_query_str) ∧
    (∀ q, findQuoted search_strategy = [q] →
      select_best_search_query search_strategy original_query_str = q) ∧
    (2 ≤ (findQuoted search_strategy).length →
      some (select_best_search_query search_strategy original_query_str) =
        ((scoredQueries (findQuoted search_strategy) original_query_str).find?
            (fun x => (scoredQueries (findQuoted search_strategy) original_query_str).all
              (fun y => decide (y.2 ≤ x.2)))).map Prod.fst) := by
  refine ⟨?_, ?_, ?_⟩
  · intro h
    simp only [select_best_search_query, h]
  · intro q h
    simp only [select_best_search_query, h]
  · intro h2
    cases hfq : findQuoted search_strategy with
    | nil => rw [hfq] at h2; simp at h2
    | cons q₁ rest =>
      cases rest with
      | nil => rw [hfq] at h2; simp at h2
      | cons q₂ qs =>
        have htrans : ∀ a b c : String × ℚ,
            (fun x y : String × ℚ => decide (y.2 ≤ x.2)) a b = true →
            (fun x y : String × ℚ => decide (y.2 ≤ x.2)) b c = true →
            (fun x y : String × ℚ => decide (y.2 ≤ x.2)) a c = true := by
          intro a b c hab hbc
          simp only [decide_eq_true_eq] at hab hbc ⊢
          exact le_trans hbc hab
        have htotal : ∀ a b : String × ℚ,
            ((fun x y : String × ℚ => decide (y.2 ≤ x.2)) a b ||
             (fun x y : String × ℚ => decide (y.2 ≤ x.2)) b a) = true := by
          intro a b
          rcases le_total a.2 b.2 with hle | hle <;> simp [hle]
        have hhead := head?_mergeSort_eq_find?
          (fun x y : String × ℚ => decide (y.2 ≤ x.2)) htrans htotal
          (scoredQueries (q₁ :: q₂ :: qs) original_query_str)
        have hne : (scoredQueries (q₁ :: q₂ :: qs) original_query_str).mergeSort
            (fun x y : String × ℚ => decide (y.2 ≤ x.2)) ≠ [] := by
          intro hnil
          have hlen := congrArg List.length hnil
          rw [List.length_mergeSort] at hlen
          simp [scoredQueries] at hlen
        cases hM : ((scoredQueries (q₁ :: q₂ :: qs) original_query_str).mergeSort
            (fun x y : String × ℚ => decide (y.2 ≤ x.2))).head? with
        | none => exact absurd (List.head?_eq_none_iff.mp hM) hne
        | some r =>
          have hsel : select_best_search_query search_strategy original_query_str = r.1 := by
            simp only [select_best_search_query, hfq, List.headD_eq_head?_getD, hM,
              Option.getD_some]
          simp only [hfq, hsel]
          rw [← hhead, hM]
          rfl

/-- Witness for `select_best_search_query_spec`: the three candidate counts
at concrete inputs (none, one, and two candidates). -/
theorem select_best_search_query_spec_witness :
    select_best_search_query "no quoted candidates" "orig query" = "orig query" ∧
    select_best_search_query "use \"only one\" here" "orig query" = "only one" ∧
    some (select_best_search_query "try \"latest news foo\" or \"foo bar\"" "foo bar baz") =
      ((scoredQueries (findQuoted "try \"latest news foo\" or \"foo bar\"") "foo bar baz").find?
          (fun x => (scoredQueries (findQuoted "try \"latest news foo\" or \"foo bar\"") "foo bar baz").all
            (fun y => decide (y.2 ≤ x.2)))).map Prod.fst :=
  ⟨(select_best_search_query_spec "no quoted candidates" "orig query").1 (by decide),
   (select_best_search_query_spec "use \"only one\" here" "orig query").2.1 "only one" (by decide),
   (select_best_search_query_spec "try \"latest news foo\" or \"foo bar\"" "foo bar baz").2.2
     (by decide)⟩

theorem deepScrapeLoop_length (scrape : Nat → ScrapeOutcome) :
    ∀ (top cur : List Source) (k : Nat),
      (deepScrapeLoop scrape top cur k).1.length = cur.length := by
  intro top
  induction top with
  | nil => intro cur k; rfl
  | cons s rest ih =>
    intro cur k
    simp only [deepScrapeLoop]
    cases hout : scrape k with
    | timeout => dsimp only; exact ih cur (k + 1)
    | exn m => dsimp only; exact ih cur (k + 1)
    | result st msg summ =>
      dsimp only
      by_cases hst : st = "success"
      · rw [if_pos hst]
        dsimp only
        rw [ih, List.length_modify]
      · rw [if_neg hst]
        dsimp only
        exact ih cur (k + 1)

theorem deepScrapeLoop_results (scrape : Nat → ScrapeOutcome) :
    ∀ (top cur : List Source) (k : Nat),
      (deepScrapeLoop scrape top cur k).2 = attemptsFrom scrape top k := by
  intro top
  induction top with
  | nil => intro cur k; rfl
  | cons s rest ih =>
    intro cur k
    simp only [deepScrapeLoop, attemptsFrom]
    cases hout : scrape k with
    | timeout => dsimp only; rw [ih]
    | exn m => dsimp only; rw [ih]
    | result st msg summ =>
      dsimp only
      by_cases hst : st = "success"
      · rw [if_pos hst]
        dsimp only
        rw [ih]
      · rw [if_neg hst]
        dsimp only
        rw [ih]

theorem findIdx_congr {α : Type} (p : α → Bool) :
    ∀ {l₁ l₂ : List α}, (∀ j : Nat, (l₁[j]?).map p = (l₂[j]?).map p) →
      l₁.findIdx p = l₂.findIdx p := by
  intro l₁
  induction l₁ with
  | nil =>
    intro l₂ h
    cases l₂ with
    | nil => rfl
    | cons b t => have := h 0; simp at this
  | cons a t ih =>
    intro l₂ h
    cases l₂ with
    | nil => have := h 0; simp at this
    | cons b t₂ =>
      have h0 := h 0
      simp only [List.getElem?_cons_zero, Option.map_some'] at h0
      have hpa : p a = p b := by injection h0
      rw [List.findIdx_cons, List.findIdx_cons, hpa]
      cases p b
      · simp only [cond_false]
        rw [ih (fun j => by have := h (j + 1); simpa using this)]
      · rfl

theorem hitSumm_eq_none (orig : List Source) (scrape : Nat → ScrapeOutcome) :
    ∀ (l : List Source) (k j : Nat), (∀ x ∈ l, orig.indexOf x ≠ j) →
      hitSumm orig scrape l k j = none := by
  intro l
  induction l with
  | nil => intro k j _; rfl
  | cons s rest ih =>
    intro k j h
    rw [hitSumm, if_neg]
    · exact ih (k + 1) j (fun x hx => h x (List.mem_cons_of_mem s hx))
    · intro hc
      exact h s (List.mem_cons_self s rest) hc.1

theorem hitSumm_isSome_iff (orig : List Source) (scrape : Nat → ScrapeOutcome) :
    ∀ (l : List Source) (k j : Nat),
      (hitSumm orig scrape l k j).isSome = true ↔
        ∃ i : Nat, ∃ hi : i < l.length,
          orig.indexOf (l.get ⟨i, hi⟩) = j ∧ (scrape (k + i)).isSuccess = true := by
  intro l
  induction l with
  | nil => intro k j; simp [hitSumm]
  | cons s rest ih =>
    intro k j
    rw [hitSumm]
    by_cases hc : orig.indexOf s = j ∧ (scrape k).isSuccess = true
    · rw [if_pos hc]
      simp only [Option.isSome_some, true_iff]
      exact ⟨0, by simp, by simpa using hc.1, by simpa using hc.2⟩
    · rw [if_neg hc, ih (k + 1) j]
      constructor
      · rintro ⟨i, hi, hidx, hs⟩
        refine ⟨i + 1, by simpa using hi, ?_, ?_⟩
        · simpa using hidx
        · have harith : k + 1 + i = k + (i + 1) := by omega
          rw [← harith]
          exact hs
      · rintro ⟨i, hi, hidx, hs⟩
        cases i with
        | zero => exact absurd ⟨by simpa using hidx, by simpa using hs⟩ hc
        | succ i =>
          refine ⟨i, by simpa using hi, by simpa using hidx, ?_⟩
          have harith : k + (i + 1) = k + 1 + i := by omega
          rw [harith] at hs
          exact hs

theorem hitSumm_some_isSome (orig : List Source) (scrape : Nat → ScrapeOutcome)
    (hsucc : ∀ k, (scrape k).isSuccess = true → ((scrape k).summarized).isSome = true) :
    ∀ (l : List Source) (k j : Nat) (v : Option String),
      hitSumm orig scrape l k j = some v → v.isSome = true := by
  intro l
  induction l with
  | nil => intro k j v h; exact absurd h (by simp [hitSumm])
  | cons s rest ih =>
    intro k j v h
    rw [hitSumm] at h
    by_cases hc : orig.indexOf s = j ∧ (scrape k).isSuccess = true
    · rw [if_pos hc] at h
      injection h with h
      rw [← h]
      exact hsucc k hc.2
    · rw [if_neg hc] at h
      exact ih (k + 1) j v h

theorem deepScrapeLoop_getElem? (orig : List Source) (scrape : Nat → ScrapeOutcome)
    (hnd : orig.Nodup) (hnone : ∀ s ∈ orig, s.summarized_content = none)
    (hsucc : ∀ k, (scrape k).isSuccess = true → ((scrape k).summarized).isSome = true) :
    ∀ (top cur : List Source) (k : Nat),
      top.Nodup → (∀ s ∈ top, s ∈ orig) →
      (∀ j : Nat, cur[j]? = orig[j]? ∨
        ∃ s o, cur[j]? = some s ∧ orig[j]? = some o ∧
          s.summarized_content.isSome = true ∧ o ∉ top) →
      ∀ j : Nat, (deepScrapeLoop scrape top cur k).1[j]? =
        (hitSumm orig scrape top k j).elim (cur[j]?)
          (fun v => (cur[j]?).map (fun s => s.withSummarized v)) := by
  intro top
  induction top with
  | nil =>
    intro cur k _ _ _ j
    simp [deepScrapeLoop, hitSumm]
  | cons s rest ih =>
    intro cur k hndt hsub hinv j
    have hsmem : s ∈ orig := hsub s (List.mem_cons_self s rest)
    have hsnone : s.summarized_content = none := hnone s hsmem
    have hrestsub : ∀ x ∈ rest, x ∈ orig := fun x hx => hsub x (List.mem_cons_of_mem s hx)
    obtain ⟨hsnotin, hndrest⟩ := List.nodup_cons.mp hndt
    have hpt : ∀ j2 : Nat,
        ((cur[j2]?).map (fun a => a == s)) = ((orig[j2]?).map (fun a => a == s)) := by
      intro j2
      rcases hinv j2 with h | ⟨s', o, hc, ho, hsome, hno⟩
      · rw [h]
      · rw [hc, ho]
        have h1 : (s' == s) = false := by
          rw [beq_eq_false_iff_ne]
          intro he
          rw [he, hsnone] at hsome
          exact Bool.noConfusion hsome
        have h2 : (o == s) = false := by
          rw [beq_eq_false_iff_ne]
          intro he
          exact hno (he ▸ List.mem_cons_self s rest)
        simp only [Option.map_some']
        rw [h1, h2]
    have hidx : cur.indexOf s = orig.indexOf s := by
      unfold List.indexOf
      exact findIdx_congr _ hpt
    have hop : orig[orig.indexOf s]? = some s := List.getElem?_indexOf hsmem
    have hnot_rest : ∀ x ∈ rest, orig.indexOf x ≠ orig.indexOf s := by
      intro x hx he
      have hxmem : x ∈ orig := hrestsub x hx
      have hxs : x = s := (List.indexOf_inj hxmem hsmem).mp he
      exact hsnotin (hxs ▸ hx)
    have hinv_weak :
        (∀ j2 : Nat, cur[j2]? = orig[j2]? ∨
          ∃ s' o, cur[j2]? = some s' ∧ orig[j2]? = some o ∧
            s'.summarized_content.isSome = true ∧ o ∉ rest) := by
      intro j2
      rcases hinv j2 with h | ⟨s', o, hc, ho, hsome, hno⟩
      · exact Or.inl h
      · exact Or.inr ⟨s', o, hc, ho, hsome,
          fun hm => hno (List.mem_cons_of_mem s hm)⟩
    simp only [deepScrapeLoop]
    rw [hitSumm]
    cases hout : scrape k with
    | result st msg summ =>
      dsimp only
      by_cases hst : st = "success"
      · -- successful scrape: the entry at `sources.index(source)` is updated
        rw [if_pos hst]
        dsimp only
        have hsucck : (scrape k).isSuccess = true := by
          rw [hout]
          simp [ScrapeOutcome.isSuccess, hst]
        have hsummsome : summ.isSome = true := by
          have hs2 := hsucc k hsucck
          rw [hout] at hs2
          simpa [ScrapeOutcome.summarized] using hs2
        have hcur' : ∀ j2 : Nat,
            (List.modify (fun x => x.withSummarized summ) (cur.indexOf s) cur)[j2]? =
              (if j2 = orig.indexOf s
               then (cur[j2]?).map (fun x => x.withSummarized summ)
               else cur[j2]?) := by
          intro j2
          by_cases hj2 : j2 = orig.indexOf s
          · rw [if_pos hj2, hidx, hj2]
            exact List.getElem?_modify_eq _ _ _
          · rw [if_neg hj2, hidx]
            exact List.getElem?_modify_ne _ _ (fun he => hj2 he.symm)
        have hinv' : ∀ j2 : Nat,
            (List.modify (fun x => x.withSummarized summ) (cur.indexOf s) cur)[j2]? = orig[j2]? ∨
            ∃ s' o,
              (List.modify (fun x => x.withSummarized summ) (cur.indexOf s) cur)[j2]? = some s' ∧
              orig[j2]? = some o ∧ s'.summarized_content.isSome = true ∧ o ∉ rest := by
        -- at the modified position the entry now has `summarized_content`
        -- populated and its original inhabitant was the processed source,
        -- which is not in `rest`; elsewhere the old invariant carries over.
          intro j2
          by_cases hj2 : j2 = orig.indexOf s
          · right
            rcases hinv j2 with h | ⟨s', o, hc, ho, hsome, hno⟩
            · have hcj : cur[j2]? = some s := by
                rw [h, hj2, hop]
              refine ⟨s.withSummarized summ, s, ?_, by rw [hj2]; exact hop, ?_, hsnotin⟩
              · rw [hcur' j2, if_pos hj2, hcj]
                rfl
              · exact hsummsome
            · refine ⟨s'.withSummarized summ, o, ?_, ho, ?_, ?_⟩
              · rw [hcur' j2, if_pos hj2, hc]
                rfl
              · exact hsummsome
              · intro hm
                exact hno (List.mem_cons_of_mem s hm)
          · rcases hinv j2 with h | ⟨s', o, hc, ho, hsome, hno⟩
            · left
              rw [hcur' j2, if_neg hj2, h]
            · right
              refine ⟨s', o, ?_, ho, hsome, fun hm => hno (List.mem_cons_of_mem s hm)⟩
              rw [hcur' j2, if_neg hj2, hc]
        rw [ih _ (k + 1) hndrest hrestsub hinv' j]
        by_cases hj : orig.indexOf s = j
        · rw [if_pos ⟨hj, by simp [ScrapeOutcome.isSuccess, hst]⟩]
          have hrest_none : hitSumm orig scrape rest (k + 1) j = none :=
            hitSumm_eq_none orig scrape rest (k + 1) j
              (fun x hx he => hnot_rest x hx (he.trans hj.symm))
          rw [hrest_none]
          simp only [Option.elim_none, Option.elim_some]
          rw [hcur' j, if_pos hj.symm]
          rfl
        · rw [if_neg (fun hc => hj hc.1)]
          have hcurj : (List.modify (fun x => x.withSummarized summ)
              (cur.indexOf s) cur)[j]? = cur[j]? := by
            rw [hcur' j, if_neg (fun he => hj he.symm)]
          rw [hcurj]
      · rw [if_neg hst]
        dsimp only
        rw [ih cur (k + 1) hndrest hrestsub hinv_weak j]
        rw [if_neg (fun hc => absurd hc.2 (by simp [ScrapeOutcome.isSuccess, hst]))]
    | timeout =>
      dsimp only
      rw [ih cur (k + 1) hndrest hrestsub hinv_weak j]
      rw [if_neg (fun hc => absurd hc.2 (by simp [ScrapeOutcome.isSuccess]))]
    | exn m =>
      dsimp only
      rw [ih cur (k + 1) hndrest hrestsub hinv_weak j]
      rw [if_neg (fun hc => absurd hc.2 (by simp [ScrapeOutcome.isSuccess]))]

theorem analysisStep_summarized (oracle : Nat → Option String)
    (cur : List Source) (j : Nat) :
    ∀ j2 : Nat, ((analysisStep oracle cur j)[j2]?).map (fun s => s.summarized_content) =
      (cur[j2]?).map (fun s => s.summarized_content) := by
  intro j2
  unfold analysisStep
  cases hg : cur.get? j with
  | none => rfl
  | some source =>
    dsimp only
    by_cases ht : truthy (pyOr (pyOr source.content source.summarized_content) source.snippet) = true
    · rw [if_pos ht]
      cases ho : oracle j with
      | none => rfl
      | some analysis =>
        dsimp only
        by_cases hj2 : j2 = j
        · rw [hj2, List.getElem?_modify_eq]
          cases cur[j]? <;> rfl
        · rw [List.getElem?_modify_ne _ _ (fun he => hj2 he.symm)]
    · rw [if_neg ht]

theorem analysisStep_length (oracle : Nat → Option String)
    (cur : List Source) (j : Nat) :
    (analysisStep oracle cur j).length = cur.length := by
  unfold analysisStep
  cases hg : cur.get? j with
  | none => rfl
  | some source =>
    dsimp only
    by_cases ht : truthy (pyOr (pyOr source.content source.summarized_content) source.snippet) = true
    · rw [if_pos ht]
      cases ho : oracle j with
      | none => rfl
      | some analysis => exact List.length_modify _ _ _
    · rw [if_neg ht]

theorem analysisFold_summarized (oracle : Nat → Option String) :
    ∀ (l : List Nat) (cur : List Source) (j2 : Nat),
      ((l.foldl (analysisStep oracle) cur)[j2]?).map (fun s => s.summarized_content) =
        (cur[j2]?).map (fun s => s.summarized_content) := by
  intro l
  induction l with
  | nil => intro cur j2; rfl
  | cons a t ih =>
    intro cur j2
    rw [List.foldl_cons, ih, analysisStep_summarized]

theorem analysisFold_length (oracle : Nat → Option String) :
    ∀ (l : List Nat) (cur : List Source),
      (l.foldl (analysisStep oracle) cur).length = cur.length := by
  intro l
  induction l with
  | nil => intro cur; rfl
  | cons a t ih =>
    intro cur
    rw [List.foldl_cons, ih, analysisStep_length]

theorem analysisStage_summarized (depth : String) (sources : List Source)
    (oracle : Nat → Option String) (j2 : Nat) :
    ((analysisStage depth sources oracle)[j2]?).map (fun s => s.summarized_content) =
      (sources[j2]?).map (fun s => s.summarized_content) := by
  unfold analysisStage
  split
  · exact analysisFold_summarized oracle _ sources j2
  · rfl

theorem analysisStage_length (depth : String) (sources : List Source)
    (oracle : Nat → Option String) :
    (analysisStage depth sources oracle).length = sources.length := by
  unfold analysisStage
  split
  · exact analysisFold_length oracle _ sources
  · rfl

theorem gatherSources_summarized_none (env : ResearchEnv) (depth intent : String) :
    ∀ s ∈ gatherSources env depth intent, s.summarized_content = none := by
  intro s hs
  unfold gatherSources at hs
  rcases List.mem_append.mp hs with h | h
  · split at h
    · split at h
      · obtain ⟨a, _, ha⟩ := List.mem_map.mp h
        rw [← ha]
        rfl
      · exact absurd h (List.not_mem_nil s)
    · exact absurd h (List.not_mem_nil s)
  · split at h
    · obtain ⟨c, _, hc⟩ := List.mem_map.mp h
      rw [← hc]
      rfl
    · exact absurd h (List.not_mem_nil s)

theorem topWebSources_nodup (depth : String) (sources : List Source)
    (h : sources.Nodup) : (topWebSources depth sources).Nodup :=
  ((List.take_sublist _ _).nodup) (h.filter _)

theorem topWebSources_subset (depth : String) (sources : List Source) :
    ∀ s ∈ topWebSources depth sources, s ∈ sources := by
  intro s hs
  exact List.mem_of_mem_filter (List.mem_of_mem_take hs)

theorem topWebSources_web (depth : String) (sources : List Source) :
    ∀ s ∈ topWebSources depth sources, s.source_type = "web" := by
  intro s hs
  have := List.of_mem_filter (List.mem_of_mem_take hs)
  exact of_decide_eq_true this

theorem hitSumm_at (orig : List Source) (scrape : Nat → ScrapeOutcome) :
    ∀ (l : List Source) (k : Nat), l.Nodup → (∀ x ∈ l, x ∈ orig) →
      ∀ (i : Nat) (hi : i < l.length), (scrape (k + i)).isSuccess = true →
        hitSumm orig scrape l k (orig.indexOf (l.get ⟨i, hi⟩)) =
          some ((scrape (k + i)).summarized) := by
  intro l
  induction l with
  | nil =>
    intro k _ _ i hi hs
    simp at hi
  | cons s rest ih =>
    intro k hndl hsub i hi hs
    obtain ⟨hsnotin, hndrest⟩ := List.nodup_cons.mp hndl
    cases i with
    | zero =>
      rw [hitSumm, if_pos ⟨rfl, by simpa using hs⟩]
      rfl
    | succ i =>
      have hlt : i < rest.length := by simpa using hi
      have hget : (s :: rest).get ⟨i + 1, hi⟩ = rest.get ⟨i, hlt⟩ := rfl
      have hmem : rest.get ⟨i, hlt⟩ ∈ rest := List.get_mem rest i hlt
      have hne : orig.indexOf s ≠ orig.indexOf ((s :: rest).get ⟨i + 1, hi⟩) := by
        rw [hget]
        intro he
        have heq : s = rest.get ⟨i, hlt⟩ :=
          (List.indexOf_inj (hsub s (List.mem_cons_self s rest))
            (hsub _ (List.mem_cons_of_mem s hmem))).mp he
        exact hsnotin (heq ▸ hmem)
      rw [hitSumm, if_neg (fun hc => hne hc.1)]
      have harith : k + (i + 1) = k + 1 + i := by omega
      rw [harith] at hs
      rw [hget, harith]
      exact ih (k + 1) hndrest (fun x hx => hsub x (List.mem_cons_of_mem s hx)) i hlt hs

theorem deepScrapeStage_length (depth : String) (sources : List Source)
    (scrape : Nat → ScrapeOutcome) :
    (deepScrapeStage depth sources scrape).1.length = sources.length := by
  unfold deepScrapeStage
  split
  · exact deepScrapeLoop_length scrape _ sources 0
  · rfl

theorem deepScrapeStage_getElem? (depth : String) (sources : List Source)
    (scrape : Nat → ScrapeOutcome)
    (hd : depth = "deep" ∨ depth = "standard")
    (hnd : sources.Nodup) (hnone : ∀ s ∈ sources, s.summarized_content = none)
    (hsucc : ∀ k, (scrape k).isSuccess = true → ((scrape k).summarized).isSome = true)
    (j : Nat) :
    (deepScrapeStage depth sources scrape).1[j]? =
      (hitSumm sources scrape (topWebSources depth sources) 0 j).elim (sources[j]?)
        (fun v => (sources[j]?).map (fun s => s.withSummarized v)) := by
  unfold deepScrapeStage
  rw [if_pos hd]
  exact deepScrapeLoop_getElem? sources scrape hnd hnone hsucc
    (topWebSources depth sources) sources 0
    (topWebSources_nodup depth sources hnd)
    (topWebSources_subset depth sources)
    (fun j2 => Or.inl rfl) j

theorem deepScrapeStage_summarized_isSome (depth : String) (sources : List Source)
    (scrape : Nat → ScrapeOutcome)
    (hd : depth = "deep" ∨ depth = "standard")
    (hnd : sources.Nodup) (hnone : ∀ s ∈ sources, s.summarized_content = none)
    (hsucc : ∀ k, (scrape k).isSuccess = true → ((scrape k).summarized).isSome = true)
    (j : Nat) :
    ((deepScrapeStage depth sources scrape).1[j]?).map
        (fun s => s.summarized_content.isSome) =
      (sources[j]?).map
        (fun _ => (hitSumm sources scrape (topWebSources depth sources) 0 j).isSome) := by
  rw [deepScrapeStage_getElem? depth sources scrape hd hnd hnone hsucc j]
  cases hh : hitSumm sources scrape (topWebSources depth sources) 0 j with
  | none =>
    simp only [Option.elim_none, Option.isSome_none]
    cases hsj : sources[j]? with
    | none => rfl
    | some o =>
      have homem : o ∈ sources := List.getElem?_mem hsj
      simp [hnone o homem]
  | some v =>
    have hv : v.isSome = true :=
      hitSumm_some_isSome sources scrape hsucc (topWebSources depth sources) 0 j v hh
    simp only [Option.elim_some, Option.isSome_some]
    cases hsj : sources[j]? with
    | none => rfl
    | some o =>
      simp [Source.withSummarized, hv]

/-- C1, counterexample: with depth `standard` and a source list whose first
web source already carries inline `content`, the deep-scrape stage still
scrapes it — the scrape-attempt log names its URL first — and the fourth
web source (the third one lacking content) is not scraped, contradicting
both "sources that already carry content are never scraped" and "exactly
the first 3 sources … which lack an inline content field". -/
theorem deep_scrape_scrapes_content_bearing_source :
    exWebWithContent.content = some "full body" ∧
    ((deepScrapeStage "standard" exC1Sources (fun _ => ScrapeOutcome.timeout)).2.map
        (fun r => r.url)) =
      [some "http://a.example", some "http://b.example", some "http://c.example"] := by
  constructor
  · rfl
  · rfl

/-- C1, amended: for depth `standard` (`deep`), the deep-scrape stage issues
exactly one scrape attempt, in order, for each of the first 3 (5) sources
whose `source_type` is `"web"` — whether or not they already carry inline
`content`, because the guard that was meant to skip content-bearing sources
only wraps a log statement — and news-type sources are never scraped; when
the gathered sources are distinct and unsummarized, a successful scrape of
the `i`-th selected source attaches that scrape's `summarized_content` to
the source's entry. -/
theorem deep_scrape_scrapes_first_web (depth : String) (sources : List Source)
    (scrape : Nat → ScrapeOutcome) (hd : depth = "deep" ∨ depth = "standard") :
    ((deepScrapeStage depth sources scrape).2 =
      attemptsFrom scrape (topWebSources depth sources) 0) ∧
    (topWebSources depth sources =
      (sources.filter (fun s => s.source_type = "web")).take
        (if depth = "standard" then 3 else 5)) ∧
    (∀ s ∈ topWebSources depth sources, s.source_type = "web") ∧
    (sources.Nodup → (∀ s ∈ sources, s.summarized_content = none) →
      (∀ k, (scrape k).isSuccess = true → ((scrape k).summarized).isSome = true) →
      ∀ (i : Nat) (hi : i < (topWebSources depth sources).length),
        (scrape i).isSuccess = true →
        ((deepScrapeStage depth sources scrape).1)[sources.indexOf
            ((topWebSources depth sources).get ⟨i, hi⟩)]? =
          some (((topWebSources depth sources).get ⟨i, hi⟩).withSummarized
            ((scrape i).summarized))) := by
  refine ⟨?_, rfl, topWebSources_web depth sources, ?_⟩
  · unfold deepScrapeStage
    rw [if_pos hd]
    exact deepScrapeLoop_results scrape (topWebSources depth sources) sources 0
  · intro hnd hnone hsucc i hi hs
    have hs0 : (scrape (0 + i)).isSuccess = true := by simpa using hs
    have hhit := hitSumm_at sources scrape (topWebSources depth sources) 0
      (topWebSources_nodup depth sources hnd) (topWebSources_subset depth sources) i hi hs0
    have hmem : (topWebSources depth sources).get ⟨i, hi⟩ ∈ sources :=
      topWebSources_subset depth sources _ (List.get_mem _ i hi)
    have hget : sources[sources.indexOf ((topWebSources depth sources).get ⟨i, hi⟩)]? =
        some ((topWebSources depth sources).get ⟨i, hi⟩) :=
      List.getElem?_indexOf hmem
    rw [deepScrapeStage_getElem? depth sources scrape hd hnd hnone hsucc _, hhit]
    simp only [Option.elim_some]
    rw [hget]
    simp

/-- C2: a per-source failure or timeout in the deep-scrape stage does not
abort the research run.  With a successful query analysis, a non-empty list
of distinct gathered sources, and any mix of per-call scrape outcomes, the
run reaches synthesis and returns `status = "success"`; the report carries
the synthesized answer and one entry per gathered source; an entry has
`summarized_content` populated exactly when some selected source sitting at
its position was scraped successfully; and the loop records one attempt (with
the failure reason on failure) for every selected source. -/
theorem research_partial_scrape_failure (env : ResearchEnv) (query depth : String)
    (a : QueryAnalysis) (hA : env.analyze = .ok a)
    (hd : depth = "deep" ∨ depth = "standard")
    (hne : gatherSources env depth a.intent ≠ [])
    (hnd : (gatherSources env depth a.intent).Nodup)
    (hsucc : ∀ k, (env.scrape k).isSuccess = true →
      ((env.scrape k).summarized).isSome = true) :
    (perform_research env query depth).status = "success" ∧
    (∃ report, (perform_research env query depth).result = some report ∧
      report.answer = env.synth.synthesized_answer ∧
      report.sources.length = (gatherSources env depth a.intent).length ∧
      (∀ j : Nat, j < (gatherSources env depth a.intent).length →
        ∃ s, report.sources[j]? = some s ∧
          (s.summarized_content.isSome = true ↔
            ∃ i : Nat,
              ∃ hi : i < (topWebSources depth (gatherSources env depth a.intent)).length,
                (gatherSources env depth a.intent).indexOf
                  ((topWebSources depth (gatherSources env depth a.intent)).get ⟨i, hi⟩) = j ∧
                (env.scrape i).isSuccess = true))) ∧
    ((deepScrapeStage depth (gatherSources env depth a.intent) env.scrape).2 =
      attemptsFrom env.scrape (topWebSources depth (gatherSources env depth a.intent)) 0) := by
  have hnone := gatherSources_summarized_none env depth a.intent
  have hlen2 : (analysisStage depth
      (deepScrapeStage depth (gatherSources env depth a.intent) env.scrape).1
      env.analyzeContent).length = (gatherSources env depth a.intent).length := by
    rw [analysisStage_length, deepScrapeStage_length]
  have hne2 : analysisStage depth
      (deepScrapeStage depth (gatherSources env depth a.intent) env.scrape).1
      env.analyzeContent ≠ [] := by
    intro hnil
    apply hne
    have := congrArg List.length hnil
    rw [hlen2] at this
    exact List.length_eq_zero.mp this
  have hres : perform_research env query depth =
      { status := "success",
        message := "Research completed for query: " ++
          (if a.search_strategy ≠ "" then select_best_search_query a.search_strategy query
           else query),
        result := some
          { query := (if a.search_strategy ≠ "" then
                select_best_search_query a.search_strategy query else query),
            query_analysis := a,
            answer := env.synth.synthesized_answer,
            sources := analysisStage depth
              (deepScrapeStage depth (gatherSources env depth a.intent) env.scrape).1
              env.analyzeContent,
            research_depth := depth,
            contradictions := env.synth.contradictions,
            additional_research_suggestions := env.synth.additional_research_suggestions } } := by
    simp only [perform_research, hA]
    rw [if_neg hne2]
  refine ⟨by rw [hres], ⟨_, by rw [hres], rfl, hlen2, ?_⟩, ?_⟩
  · intro j hj
    obtain ⟨s, hs⟩ : ∃ s, (analysisStage depth
        (deepScrapeStage depth (gatherSources env depth a.intent) env.scrape).1
        env.analyzeContent)[j]? = some s := by
      rw [List.getElem?_eq_getElem (show j < _ by rw [hlen2]; exact hj)]
      exact ⟨_, rfl⟩
    refine ⟨s, hs, ?_⟩
    have hchain := analysisStage_summarized depth
      (deepScrapeStage depth (gatherSources env depth a.intent) env.scrape).1
      env.analyzeContent j
    rw [hs] at hchain
    have hstage := deepScrapeStage_summarized_isSome depth
      (gatherSources env depth a.intent) env.scrape hd hnd hnone hsucc j
    cases hstg : (deepScrapeStage depth (gatherSources env depth a.intent) env.scrape).1[j]? with
    | none =>
      rw [hstg] at hchain
      exact absurd hchain (by simp)
    | some s1 =>
      rw [hstg] at hchain hstage
      have hg : (gatherSources env depth a.intent)[j]? =
          some ((gatherSources env depth a.intent).get ⟨j, hj⟩) := by
        rw [List.getElem?_eq_getElem hj]
        rfl
      rw [hg] at hstage
      simp only [Option.map_some'] at hchain hstage
      have hsumm : s.summarized_content = s1.summarized_content := by injection hchain
      have hisS : s1.summarized_content.isSome =
          (hitSumm (gatherSources env depth a.intent) env.scrape
            (topWebSources depth (gatherSources env depth a.intent)) 0 j).isSome := by
        injection hstage
      rw [hsumm, hisS]
      rw [hitSumm_isSome_iff]
      constructor
      · rintro ⟨i, hi, hidx, hssc⟩
        exact ⟨i, hi, hidx, by simpa using hssc⟩
      · rintro ⟨i, hi, hidx, hssc⟩
        exact ⟨i, hi, hidx, by simpa using hssc⟩
  · unfold deepScrapeStage
    rw [if_pos hd]
    exact deepScrapeLoop_results env.scrape _ _ 0


/-- Witness for `deep_scrape_scrapes_first_web` on the concrete source list:
the attempts log is the first-3-web log, and the successful scrape of the
first selected source attaches its summary. -/
theorem deep_scrape_scrapes_first_web_witness :
    ((deepScrapeStage "standard" exC1Sources exScrapeOk).2 =
      attemptsFrom exScrapeOk (topWebSources "standard" exC1Sources) 0) ∧
    ((deepScrapeStage "standard" exC1Sources exScrapeOk).1)[exC1Sources.indexOf
        ((topWebSources "standard" exC1Sources).get ⟨0, by decide⟩)]? =
      some (((topWebSources "standard" exC1Sources).get ⟨0, by decide⟩).withSummarized
        ((exScrapeOk 0).summarized)) :=
  ⟨(deep_scrape_scrapes_first_web "standard" exC1Sources exScrapeOk (Or.inr rfl)).1,
   (deep_scrape_scrapes_first_web "standard" exC1Sources exScrapeOk (Or.inr rfl)).2.2.2
     (by decide) (by decide) (fun _ _ => rfl) 0 (by decide) rfl⟩

/-- Witness for `research_partial_scrape_failure` at the concrete
environment with five web sources, scrapes 1 and 3 timing out: the run still
succeeds and every selected source has an attempt logged. -/
theorem research_partial_scrape_failure_witness :
    (perform_research exC2Env "some query" "deep").status = "success" ∧
    ((deepScrapeStage "deep" (gatherSources exC2Env "deep" "research the topic")
        exC2Env.scrape).2 =
      attemptsFrom exC2Env.scrape
        (topWebSources "deep" (gatherSources exC2Env "deep" "research the topic")) 0) := by
  have hg : gatherSources exC2Env "deep" "research the topic" =
      exC2Env.webContexts.map ctxToSource := by
    unfold gatherSources
    rw [if_pos (Or.inr rfl), if_neg (by decide), if_pos (by decide)]
    rfl
  have hsucc : ∀ k, (exC2Env.scrape k).isSuccess = true →
      ((exC2Env.scrape k).summarized).isSome = true := by
    intro k hk
    have hk' : (exC2Scrape k).isSuccess = true := hk
    show ((exC2Scrape k).summarized).isSome = true
    unfold exC2Scrape at hk' ⊢
    by_cases h : k % 2 = 1
    · rw [if_pos h] at hk'
      exact absurd hk' (by decide)
    · rw [if_neg h] at hk' ⊢
      rfl
  have hmain := research_partial_scrape_failure exC2Env "some query" "deep"
    { search_strategy := "", intent := "research the topic" } rfl (Or.inl rfl)
    (by rw [hg]; decide) (by rw [hg]; decide) hsucc
  exact ⟨hmain.1, hmain.2.2⟩

end WRA
